import Mathlib

/-!
Shallow embedding of the paired-significance-testing module
(`src/unitxt/metric_paired_significance.py`, class `PairedDifferenceTest`).

Samples are lists of rationals.  The external statistical library calls
(`scipy.stats.ttest_rel`, `scipy.stats.permutation_test`,
`statsmodels.stats.multitest.multipletests`, `numpy.sqrt`) are opaque
parameters collected in a `StatsLib` record; the exact McNemar test of
`statsmodels.stats.contingency_tables.mcnemar` is rational arithmetic and
is modelled concretely.
-/

set_option autoImplicit false

namespace UnitxtSig

/-- The `alternative` argument; `signif_pair_diff` asserts membership in
`('greater', 'less', 'two-sided')`, so it is embedded as an enumeration. -/
inductive Alternative where
  | twoSided
  | greater
  | less
deriving DecidableEq, Repr

/-- Errors of engine construction (`assert len(model_names) == self.nmodels`). -/
inductive ConfigError where
  | badModelNames
deriving DecidableEq, Repr

/-- Error of `_check_valid_samples` (failed assertion on the samples list). -/
inductive InvalidSampleError where
  | invalid
deriving DecidableEq, Repr

/-- Error raised when combining incompatible reports
(`_is_valid_signif_report_list` assertion failure). -/
inductive IncompatibleReportsError where
  | incompatible
deriving DecidableEq, Repr

/-- The engine: `PairedDifferenceTest.__init__` stores `nmodels`, `alpha`,
`model_names` and never mutates them. -/
structure PairedDifferenceTest where
  nmodels : Nat
  alpha : ℚ
  model_names : List String
deriving DecidableEq, Repr

/-- `np.clip(x, a_min=lo, a_max=hi) = min(max(x, lo), hi)`. -/
def clip (x lo hi : ℚ) : ℚ := min (max x lo) hi

/-- `PairedDifferenceTest.__init__(nmodels, alpha, model_names)`:
`self.nmodels = max(2, int(nmodels))`,
`self.alpha = float(np.clip(alpha, a_min=1e-10, a_max=0.5))`,
default names `'model i'`, and `assert len(model_names) == self.nmodels`. -/
def PairedDifferenceTest.init (nmodels : Int) (alpha : ℚ)
    (model_names : Option (List String)) :
    Except ConfigError PairedDifferenceTest :=
  let nm : Nat := (max 2 nmodels).toNat
  let a : ℚ := clip alpha (1 / 10000000000) (1 / 2)
  match model_names with
  | none =>
      .ok ⟨nm, a, (List.range nm).map (fun i => "model " ++ toString (i + 1))⟩
  | some names =>
      if names.length = nm then .ok ⟨nm, a, names⟩ else .error .badModelNames

/-- The result record (`DiffTest` namedtuple).  The permutation-test variant
(`PERMUTE_REPORT`) carries no effect sizes; this is embedded by the two
`Option` fields being `none` there and `some _` in the `TTEST_REPORT` shape. -/
structure DiffTest where
  model_names : List String
  metric_name : String
  pvalues : List ℚ
  alternative : Alternative
  permute : Bool
  corrected : Bool
  pvalue_is_signif : List Bool
  sample_means : List ℚ
  effect_sizes : Option (List ℚ)
  effect_size_is_signif : Option (List Bool)
deriving DecidableEq, Repr

/-- External statistics-library primitives used by `signif_pair_diff`,
kept opaque: `ttest_rel` returns `(statistic, pvalue)` of a paired t-test,
`permutation_test` returns the p-value of a paired permutation test (its
last argument is the random-number-generator state it consumes),
`multipletests` returns `(reject, pvals_corrected)`, and `sqrt` is `np.sqrt`. -/
structure StatsLib where
  ttest_rel : List ℚ → List ℚ → Alternative → ℚ × ℚ
  permutation_test : List ℚ → List ℚ → Alternative → Nat → ℚ
  multipletests : List ℚ → ℚ → List Bool × List ℚ
  sqrt : ℚ → ℚ

/-- `_check_valid_samples`: the samples list has exactly `nmodels` members,
all of one common length, and that length is at least 2
(`np.unique` of the lengths is a single value `>= 2`). -/
def checkValidSamples (nmodels : Nat) (samples_list : List (List ℚ)) : Bool :=
  samples_list.length == nmodels
    && (samples_list.map List.length).dedup.length == 1
    && decide (2 ≤ (samples_list.map List.length).dedup.headD 0)

/-- `_check_binary`: every value of every sample lies in `{0, 1}`
(`np.all(np.isin(np.unique(np.vstack(samples_list)), [0, 1]))`). -/
def checkBinary (samples_list : List (List ℚ)) : Bool :=
  samples_list.all (fun s => s.all (fun v => decide (v = 0) || decide (v = 1)))

/-- `_can_use_mcnemar`: binary data, exactly two samples, two-sided test. -/
def canUseMcnemar (samples_list : List (List ℚ)) (alternative : Alternative) :
    Bool :=
  checkBinary samples_list && samples_list.length == 2
    && decide (alternative = Alternative.twoSided)

/-- The 2x2 contingency table of `_handle_binary_data_contingency`:
`pd.crosstab` over categorical `{0,1}` values keeps all four cells even
when a count is zero, rows indexed by the first sample's value and columns
by the second's. -/
structure ContTable where
  n00 : Nat
  n01 : Nat
  n10 : Nat
  n11 : Nat
deriving DecidableEq, Repr

/-- Count of paired outcomes `(a, b)` among `zip x y`. -/
def pairCount (x y : List ℚ) (a b : ℚ) : Nat :=
  (x.zip y).countP (fun p => decide (p.1 = a) && decide (p.2 = b))

/-- `_handle_binary_data_contingency(samples_list)` for two samples. -/
def contingencyTable (x y : List ℚ) : ContTable :=
  ⟨pairCount x y 0 0, pairCount x y 0 1, pairCount x y 1 0, pairCount x y 1 1⟩

/-- Continuity correction of a discordant cell: `max(count, 0.5)`. -/
def contCorr (k : Nat) : ℚ := max (k : ℚ) (1 / 2)

/-- Cohen's g from the discordant cells (source line
`b, c = max(tbl[0,1], 0.5), max(tbl[1,0], 0.5)`;
`cohens_g = max(b/(b+c), c/(b+c)) - 0.5`). -/
def cohensG (b' c' : Nat) : ℚ :=
  let b := contCorr b'
  let c := contCorr c'
  max (b / (b + c)) (c / (b + c)) - 1 / 2

/-- Cumulative distribution of `Binomial(n, 1/2)` at `k`
(`scipy.stats.binom.cdf(k, n, 0.5)`), a rational number. -/
def binomCdfHalf (k n : Nat) : ℚ :=
  (((List.range (k + 1)).map (fun i => (n.choose i : ℚ))).sum) / 2 ^ n

/-- `statsmodels.stats.contingency_tables.mcnemar(table, exact=True).pvalue`:
with `n1 = table[0,1]`, `n2 = table[1,0]`, the p-value is
`min(2 * binom.cdf(min(n1, n2), n1 + n2, 0.5), 1)`. -/
def mcnemarPvalue (t : ContTable) : ℚ :=
  min (2 * binomCdfHalf (min t.n01 t.n10) (t.n01 + t.n10)) 1

/-- `mcnemar_test(samples_list)` on two samples: the exact McNemar p-value
and the continuity-corrected Cohen's g effect size. -/
def mcnemarTest (x y : List ℚ) : ℚ × ℚ :=
  let tbl := contingencyTable x y
  (mcnemarPvalue tbl, cohensG tbl.n01 tbl.n10)

/-- `itertools.combinations(l, 2)`: all pairs of elements in list order,
earlier element first. -/
def combos2 {α : Type} : List α → List (α × α)
  | [] => []
  | x :: xs => (xs.map (fun y => (x, y))) ++ combos2 xs

/-- `iterate_pairs(samples_list)`: ordered combinations of the samples
(or of the indices `range(nmodels)` when `samples_list is None`). -/
def iteratePairs (samples_list : List (List ℚ)) : List (List ℚ × List ℚ) :=
  combos2 samples_list

/-- Modelled from the spec: "all unordered pairs (i,j), i<j, over model
indices 0..N-1, in combinatorial (lexicographic) order" — the spec-side
canonical pair enumeration, to be compared with `combos2 (List.range n)`. -/
def specCanonicalPairs (n : Nat) : List (Nat × Nat) :=
  (List.range n).flatMap
    (fun i => (List.range n).filterMap
      (fun j => if i < j then some (i, j) else none))

/-- `np.mean` of a sample. -/
def mean (l : List ℚ) : ℚ := l.sum / l.length

/-- The effect-size significance decision of source lines 215-220:
two-sided compares `|effect_size| >= 0.8`, `greater` uses
`effect_size >= 0.8`, `less` uses `effect_size <= 0.8`. -/
def effectSizeSignif (alternative : Alternative) (e : ℚ) : Bool :=
  match alternative with
  | .twoSided => decide (|e| ≥ 4 / 5)
  | .greater => decide (e ≥ 4 / 5)
  | .less => decide (e ≤ 4 / 5)

/-- `signif_pair_diff(samples_list, metric_name, alternative, permute,
corrected)`.  `rng` is the random-generator state consumed only by the
permutation test.  Validation runs first (it is reached through
`_can_use_mcnemar → _check_binary → _check_valid_samples`); `corrected`
is forced off when `nmodels == 2`; the McNemar branch handles two binary
samples under a two-sided alternative and forces `permute = False`;
otherwise a permutation test or paired t-test runs per pair, with
`multipletests` applied when `corrected`. -/
def signif_pair_diff (S : StatsLib) (E : PairedDifferenceTest) (rng : Nat)
    (samples_list : List (List ℚ)) (metric_name : String)
    (alternative : Alternative) (permute : Bool) (corrected : Bool) :
    Except InvalidSampleError DiffTest :=
  if checkValidSamples E.nmodels samples_list then
    let corrected := if E.nmodels == 2 then false else corrected
    let sample_means := samples_list.map mean
    if canUseMcnemar samples_list alternative then
      let pe := mcnemarTest (samples_list.getD 0 []) (samples_list.getD 1 [])
      .ok { model_names := E.model_names
            metric_name := metric_name
            pvalues := [pe.1]
            alternative := alternative
            permute := false
            corrected := corrected
            pvalue_is_signif := [decide (pe.1 ≤ E.alpha)]
            sample_means := sample_means
            effect_sizes := some [pe.2]
            effect_size_is_signif := some [decide (pe.2 ≥ 1 / 4)] }
    else
      if permute then
        let pvalues := (iteratePairs samples_list).map
          (fun p => S.permutation_test p.1 p.2 alternative rng)
        let pc := if corrected then S.multipletests pvalues E.alpha
          else (pvalues.map (fun p => decide (p ≤ E.alpha)), pvalues)
        .ok { model_names := E.model_names
              metric_name := metric_name
              pvalues := pc.2
              alternative := alternative
              permute := true
              corrected := corrected
              pvalue_is_signif := pc.1
              sample_means := sample_means
              effect_sizes := none
              effect_size_is_signif := none }
      else
        let test_res := (iteratePairs samples_list).map
          (fun p => S.ttest_rel p.1 p.2 alternative)
        let pvalues := test_res.map Prod.snd
        let nq : ℚ := ((samples_list.headD []).length : ℚ)
        let effect_sizes := test_res.map (fun r => r.1 / S.sqrt (S.sqrt nq))
        let ess := effect_sizes.map (effectSizeSignif alternative)
        let pc := if corrected then S.multipletests pvalues E.alpha
          else (pvalues.map (fun p => decide (p ≤ E.alpha)), pvalues)
        .ok { model_names := E.model_names
              metric_name := metric_name
              pvalues := pc.2
              alternative := alternative
              permute := false
              corrected := corrected
              pvalue_is_signif := pc.1
              sample_means := sample_means
              effect_sizes := some effect_sizes
              effect_size_is_signif := some ess }
  else .error .invalid

/-- `_is_valid_signif_report_list(test_results_list)`: every report's
`model_names` equals the engine's, all share one `corrected`, all share one
`alternative`, and the `metric_name`s are pairwise distinct (the Python
`set` cardinality checks are modelled with `List.dedup`). -/
def isValidSignifReportList (E : PairedDifferenceTest) (l : List DiffTest) :
    Bool :=
  l.all (fun r => decide (r.model_names = E.model_names))
    && (l.map (fun r => r.corrected)).dedup.length == 1
    && (l.map (fun r => r.alternative)).dedup.length == 1
    && (l.map (fun r => r.metric_name)).dedup.length == l.length

/-- The validation step of `multiple_metrics_significance_heatmap`
(report combination): the p-value columns are assembled only when the
report list passes `_is_valid_signif_report_list`. -/
def combineReports (E : PairedDifferenceTest) (l : List DiffTest) :
    Except IncompatibleReportsError (List (String × List ℚ)) :=
  if isValidSignifReportList E l then
    .ok (l.map (fun r => (r.metric_name, r.pvalues)))
  else .error .incompatible

/-! ### List lemmas: `combinations` versus the canonical pair enumeration -/

theorem combos2_map {α β : Type} (f : α → β) (l : List α) :
    combos2 (l.map f) = (combos2 l).map (fun p => (f p.1, f p.2)) := by
  induction l with
  | nil => rfl
  | cons x xs ih => simp [combos2, ih, List.map_map, Function.comp]

theorem combos2_length {α : Type} (l : List α) :
    (combos2 l).length = l.length.choose 2 := by
  induction l with
  | nil => rfl
  | cons x xs ih =>
      simp [combos2, ih, Nat.choose_succ_succ, Nat.choose_one_right,
        Nat.add_comm]

theorem filterMap_succ_zero (m : List Nat) :
    (m.map Nat.succ).filterMap
        (fun j => if 0 < j then some ((0 : Nat), j) else none) =
      m.map (fun y => ((0 : Nat), y + 1)) := by
  induction m with
  | nil => rfl
  | cons a as ih => simp [ih, Nat.succ_eq_add_one]

theorem filterMap_succ_succ (i : Nat) (m : List Nat) :
    (m.map Nat.succ).filterMap
        (fun j => if i + 1 < j then some (i + 1, j) else none) =
      (m.filterMap (fun j => if i < j then some (i, j) else none)).map
        (fun p => (p.1 + 1, p.2 + 1)) := by
  induction m with
  | nil => rfl
  | cons a as ih =>
      by_cases hia : i < a
      · simp [hia, Nat.succ_lt_succ hia, ih, Nat.succ_eq_add_one]
      · have h2 : ¬ (i + 1 < a + 1) := fun h => hia (Nat.lt_of_succ_lt_succ h)
        simp [hia, h2, ih, Nat.succ_eq_add_one]

theorem combos2_range (n : Nat) :
    combos2 (List.range n) = specCanonicalPairs n := by
  induction n with
  | zero => rfl
  | succ n ih =>
      have e1 : combos2 (List.range (n + 1)) =
          (List.range n).map (fun y => ((0 : Nat), y + 1)) ++
            (specCanonicalPairs n).map (fun p => (p.1 + 1, p.2 + 1)) := by
        rw [List.range_succ_eq_map]
        show ((List.range n).map Nat.succ).map (fun y => ((0 : Nat), y)) ++
            combos2 ((List.range n).map Nat.succ) = _
        rw [List.map_map, combos2_map, ih]
        rfl
      have e2 : specCanonicalPairs (n + 1) =
          (List.range n).map (fun y => ((0 : Nat), y + 1)) ++
            (specCanonicalPairs n).map (fun p => (p.1 + 1, p.2 + 1)) := by
        unfold specCanonicalPairs
        rw [List.range_succ_eq_map, List.flatMap_cons]
        congr 1
        · rw [List.filterMap_cons]
          have h0 : ¬ (0 < 0) := by decide
          simp only [h0, if_false]
          exact filterMap_succ_zero (List.range n)
        · rw [List.flatMap_map, List.map_flatMap]
          congr 1
          funext i
          show (0 :: (List.range n).map Nat.succ).filterMap
              (fun j => if i + 1 < j then some (i + 1, j) else none) = _
          rw [List.filterMap_cons]
          have hi0 : ¬ (i + 1 < 0) := by omega
          simp only [hi0, if_false]
          exact filterMap_succ_succ i (List.range n)
      rw [e1, e2]

theorem map_getD_range {α : Type} (l : List α) (d : α) :
    (List.range l.length).map (fun i => l.getD i d) = l := by
  induction l with
  | nil => rfl
  | cons x xs ih =>
      rw [List.length_cons, List.range_succ_eq_map, List.map_cons,
        List.map_map]
      show x :: List.map (fun i => xs.getD i d) (List.range xs.length) = x :: xs
      rw [ih]

theorem combos2_eq_canonical {α : Type} (l : List α) (d : α) :
    combos2 l = (specCanonicalPairs l.length).map
      (fun ij => (l.getD ij.1 d, l.getD ij.2 d)) := by
  conv_lhs => rw [← map_getD_range l d]
  rw [combos2_map, combos2_range]

/-! ### Branch equations for `signif_pair_diff` -/

theorem checkValidSamples_length {nmodels : Nat} {samples : List (List ℚ)}
    (h : checkValidSamples nmodels samples = true) :
    samples.length = nmodels := by
  unfold checkValidSamples at h
  simp only [Bool.and_eq_true, beq_iff_eq] at h
  exact h.1.1

theorem canUseMcnemar_length {samples : List (List ℚ)} {alt : Alternative}
    (h : canUseMcnemar samples alt = true) : samples.length = 2 := by
  unfold canUseMcnemar at h
  simp only [Bool.and_eq_true, beq_iff_eq] at h
  exact h.1.2

theorem signif_mcnemar_eq (S : StatsLib) (E : PairedDifferenceTest) (rng : Nat)
    (samples : List (List ℚ)) (m : String) (alt : Alternative)
    (permute corrected : Bool)
    (hval : checkValidSamples E.nmodels samples = true)
    (hmc : canUseMcnemar samples alt = true) :
    signif_pair_diff S E rng samples m alt permute corrected =
      .ok { model_names := E.model_names
            metric_name := m
            pvalues := [(mcnemarTest (samples.getD 0 [])
              (samples.getD 1 [])).1]
            alternative := alt
            permute := false
            corrected := if E.nmodels == 2 then false else corrected
            pvalue_is_signif := [decide ((mcnemarTest (samples.getD 0 [])
              (samples.getD 1 [])).1 ≤ E.alpha)]
            sample_means := samples.map mean
            effect_sizes := some [(mcnemarTest (samples.getD 0 [])
              (samples.getD 1 [])).2]
            effect_size_is_signif := some [decide ((mcnemarTest
              (samples.getD 0 []) (samples.getD 1 [])).2 ≥ 1 / 4)] } := by
  simp only [signif_pair_diff, hval, hmc, if_true]

theorem signif_ttest_eq (S : StatsLib) (E : PairedDifferenceTest) (rng : Nat)
    (samples : List (List ℚ)) (m : String) (alt : Alternative)
    (corrected : Bool)
    (hval : checkValidSamples E.nmodels samples = true)
    (hmc : canUseMcnemar samples alt = false) :
    signif_pair_diff S E rng samples m alt false corrected =
      (let corrected2 := if E.nmodels == 2 then false else corrected
       let test_res := (iteratePairs samples).map
         (fun p => S.ttest_rel p.1 p.2 alt)
       let pvalues := test_res.map Prod.snd
       let effect_sizes := test_res.map
         (fun r => r.1 / S.sqrt (S.sqrt ((samples.headD []).length : ℚ)))
       let pc := if corrected2 then S.multipletests pvalues E.alpha
         else (pvalues.map (fun p => decide (p ≤ E.alpha)), pvalues)
       .ok { model_names := E.model_names
             metric_name := m
             pvalues := pc.2
             alternative := alt
             permute := false
             corrected := corrected2
             pvalue_is_signif := pc.1
             sample_means := samples.map mean
             effect_sizes := some effect_sizes
             effect_size_is_signif :=
               some (effect_sizes.map (effectSizeSignif alt)) }) := by
  simp only [signif_pair_diff, hval, hmc, if_true, if_false, Bool.false_eq_true]

theorem signif_permute_eq (S : StatsLib) (E : PairedDifferenceTest) (rng : Nat)
    (samples : List (List ℚ)) (m : String) (alt : Alternative)
    (corrected : Bool)
    (hval : checkValidSamples E.nmodels samples = true)
    (hmc : canUseMcnemar samples alt = false) :
    signif_pair_diff S E rng samples m alt true corrected =
      (let corrected2 := if E.nmodels == 2 then false else corrected
       let pvalues := (iteratePairs samples).map
         (fun p => S.permutation_test p.1 p.2 alt rng)
       let pc := if corrected2 then S.multipletests pvalues E.alpha
         else (pvalues.map (fun p => decide (p ≤ E.alpha)), pvalues)
       .ok { model_names := E.model_names
             metric_name := m
             pvalues := pc.2
             alternative := alt
             permute := true
             corrected := corrected2
             pvalue_is_signif := pc.1
             sample_means := samples.map mean
             effect_sizes := none
             effect_size_is_signif := none }) := by
  simp only [signif_pair_diff, hval, hmc, if_true, if_false, Bool.false_eq_true]

theorem signif_invalid_eq (S : StatsLib) (E : PairedDifferenceTest) (rng : Nat)
    (samples : List (List ℚ)) (m : String) (alt : Alternative)
    (permute corrected : Bool)
    (hval : checkValidSamples E.nmodels samples = false) :
    signif_pair_diff S E rng samples m alt permute corrected =
      .error .invalid := by
  simp only [signif_pair_diff, hval, Bool.false_eq_true, if_false]

theorem pc_fst_length (S : StatsLib) (a : ℚ) (c : Bool) (ps : List ℚ)
    (hmt1 : ∀ ps a, ((S.multipletests ps a).1).length = ps.length) :
    ((if c then S.multipletests ps a
      else (ps.map (fun p => decide (p ≤ a)), ps)).1).length = ps.length := by
  cases c <;> simp [hmt1]

theorem pc_snd_length (S : StatsLib) (a : ℚ) (c : Bool) (ps : List ℚ)
    (hmt2 : ∀ ps a, ((S.multipletests ps a).2).length = ps.length) :
    ((if c then S.multipletests ps a
      else (ps.map (fun p => decide (p ≤ a)), ps)).2).length = ps.length := by
  cases c <;> simp [hmt2]

/-- A concrete instantiation of the external statistics library, used to
exercise the embedding on closed inputs. -/
def dummyStats : StatsLib where
  ttest_rel := fun _ _ _ => (1, 1 / 2)
  permutation_test := fun _ _ _ _ => 1 / 2
  multipletests := fun ps a => (ps.map (fun p => decide (p ≤ a)), ps)
  sqrt := fun x => x

theorem dummyStats_mt_fst (ps : List ℚ) (a : ℚ) :
    ((dummyStats.multipletests ps a).1).length = ps.length := by
  simp [dummyStats]

theorem dummyStats_mt_snd (ps : List ℚ) (a : ℚ) :
    ((dummyStats.multipletests ps a).2).length = ps.length := by
  simp [dummyStats]

/-- C1: on every valid sample set the report's `pvalues` and
`pvalue_is_signif` have length `C(N, 2)` and `sample_means` has length `N`
(`N = nmodels`), and the pair entries follow the canonical lexicographic
enumeration of unordered index pairs `(i, j)`, `i < j`, over `0..N-1`:
the pair list the branches map over is exactly the canonical one.
The `multipletests` hypotheses record the external library's contract that
the correction returns one decision and one corrected p-value per input. -/
theorem signif_pair_diff_report_shape
    (S : StatsLib) (E : PairedDifferenceTest) (rng : Nat)
    (samples : List (List ℚ)) (m : String) (alt : Alternative)
    (permute corrected : Bool)
    (hval : checkValidSamples E.nmodels samples = true)
    (hmt1 : ∀ ps a, ((S.multipletests ps a).1).length = ps.length)
    (hmt2 : ∀ ps a, ((S.multipletests ps a).2).length = ps.length) :
    ∃ r, signif_pair_diff S E rng samples m alt permute corrected = .ok r ∧
      r.pvalues.length = E.nmodels.choose 2 ∧
      r.pvalue_is_signif.length = E.nmodels.choose 2 ∧
      r.sample_means.length = E.nmodels ∧
      iteratePairs samples = (specCanonicalPairs E.nmodels).map
        (fun ij => (samples.getD ij.1 [], samples.getD ij.2 [])) := by
  have hlen := checkValidSamples_length hval
  have hcanon : iteratePairs samples = (specCanonicalPairs E.nmodels).map
      (fun ij => (samples.getD ij.1 [], samples.getD ij.2 [])) := by
    rw [iteratePairs, combos2_eq_canonical samples [], hlen]
  have hplen : (iteratePairs samples).length = E.nmodels.choose 2 := by
    rw [iteratePairs, combos2_length, hlen]
  have hmeans : (samples.map mean).length = E.nmodels := by
    rw [List.length_map, hlen]
  by_cases hmc : canUseMcnemar samples alt = true
  · have hn2 : E.nmodels = 2 := by
      rw [← hlen, canUseMcnemar_length hmc]
    refine ⟨_, signif_mcnemar_eq S E rng samples m alt permute corrected
      hval hmc, ?_, ?_, hmeans, hcanon⟩
    · simp [hn2]
    · simp [hn2]
  · rw [Bool.not_eq_true] at hmc
    cases permute with
    | false =>
        refine ⟨_, signif_ttest_eq S E rng samples m alt corrected hval hmc,
          ?_, ?_, hmeans, hcanon⟩
        · exact (pc_snd_length S E.alpha _ _ hmt2).trans
            (by rw [List.length_map, List.length_map, hplen])
        · exact (pc_fst_length S E.alpha _ _ hmt1).trans
            (by rw [List.length_map, List.length_map, hplen])
    | true =>
        refine ⟨_, signif_permute_eq S E rng samples m alt corrected hval hmc,
          ?_, ?_, hmeans, hcanon⟩
        · exact (pc_snd_length S E.alpha _ _ hmt2).trans
            (by rw [List.length_map, hplen])
        · exact (pc_fst_length S E.alpha _ _ hmt1).trans
            (by rw [List.length_map, hplen])

/-- Witness for C1 at a concrete three-model sample set. -/
theorem signif_pair_diff_report_shape_witness :
    ∃ r, signif_pair_diff dummyStats ⟨3, 1 / 20, ["a", "b", "c"]⟩ 0
        [[0, 1], [1, 0], [2, 2]] "m" .twoSided false true = .ok r ∧
      r.pvalues.length = Nat.choose 3 2 ∧
      r.pvalue_is_signif.length = Nat.choose 3 2 ∧
      r.sample_means.length = 3 ∧
      iteratePairs [[0, 1], [1, 0], [2, 2]] = (specCanonicalPairs 3).map
        (fun ij => ([[0, 1], [1, 0], [2, 2]].getD ij.1 [],
          [[0, 1], [1, 0], [2, 2]].getD ij.2 [])) :=
  signif_pair_diff_report_shape dummyStats ⟨3, 1 / 20, ["a", "b", "c"]⟩ 0
    [[0, 1], [1, 0], [2, 2]] "m" .twoSided false true (by decide)
    dummyStats_mt_fst dummyStats_mt_snd

/-- C2: a two-sample all-binary input under a two-sided alternative takes the
McNemar branch: the single p-value is the exact McNemar p-value of the 2x2
paired contingency table, the effect size is Cohen's g from the
continuity-corrected discordant cells, `effect_size_is_signif` holds exactly
when `g ≥ 0.25`, and the report's `permute` is `False` regardless of the
caller's `permute` argument. -/
theorem mcnemar_branch_contract
    (S : StatsLib) (E : PairedDifferenceTest) (rng : Nat)
    (x y : List ℚ) (m : String) (permute corrected : Bool)
    (hval : checkValidSamples E.nmodels [x, y] = true)
    (hbin : checkBinary [x, y] = true) :
    ∃ r, signif_pair_diff S E rng [x, y] m .twoSided permute corrected =
        .ok r ∧
      r.pvalues = [mcnemarPvalue (contingencyTable x y)] ∧
      r.pvalue_is_signif =
        [decide (mcnemarPvalue (contingencyTable x y) ≤ E.alpha)] ∧
      r.effect_sizes = some [cohensG (contingencyTable x y).n01
        (contingencyTable x y).n10] ∧
      r.effect_size_is_signif = some [decide (cohensG
        (contingencyTable x y).n01 (contingencyTable x y).n10 ≥ 1 / 4)] ∧
      r.permute = false := by
  have hmc : canUseMcnemar [x, y] .twoSided = true := by
    simp [canUseMcnemar, hbin]
  exact ⟨_, signif_mcnemar_eq S E rng [x, y] m .twoSided permute corrected
    hval hmc, rfl, rfl, rfl, rfl, rfl⟩

/-- Witness for C2 at the spec's example input
`samples = [[1,0,1,0,1], [0,0,1,1,1]]`. -/
theorem mcnemar_branch_contract_witness :
    ∃ r, signif_pair_diff dummyStats ⟨2, 1 / 20, ["a", "b"]⟩ 0
        [[1, 0, 1, 0, 1], [0, 0, 1, 1, 1]] "m" .twoSided true true = .ok r ∧
      r.pvalues = [mcnemarPvalue
        (contingencyTable [1, 0, 1, 0, 1] [0, 0, 1, 1, 1])] ∧
      r.pvalue_is_signif = [decide (mcnemarPvalue
        (contingencyTable [1, 0, 1, 0, 1] [0, 0, 1, 1, 1]) ≤
          (⟨2, 1 / 20, ["a", "b"]⟩ : PairedDifferenceTest).alpha)] ∧
      r.effect_sizes = some [cohensG
        (contingencyTable [1, 0, 1, 0, 1] [0, 0, 1, 1, 1]).n01
        (contingencyTable [1, 0, 1, 0, 1] [0, 0, 1, 1, 1]).n10] ∧
      r.effect_size_is_signif = some [decide (cohensG
        (contingencyTable [1, 0, 1, 0, 1] [0, 0, 1, 1, 1]).n01
        (contingencyTable [1, 0, 1, 0, 1] [0, 0, 1, 1, 1]).n10 ≥ 1 / 4)] ∧
      r.permute = false :=
  mcnemar_branch_contract dummyStats ⟨2, 1 / 20, ["a", "b"]⟩ 0
    [1, 0, 1, 0, 1] [0, 0, 1, 1, 1] "m" true true (by decide) (by decide)

/-- C4: with `nmodels == 2` the caller's `corrected` flag is irrelevant
(the call result is independent of it) and the returned report's
`corrected` field is `False`. -/
theorem nmodels2_forces_uncorrected
    (S : StatsLib) (E : PairedDifferenceTest) (rng : Nat)
    (samples : List (List ℚ)) (m : String) (alt : Alternative)
    (permute c1 c2 : Bool) (h2 : E.nmodels = 2) :
    signif_pair_diff S E rng samples m alt permute c1 =
      signif_pair_diff S E rng samples m alt permute c2 ∧
    ∀ r, signif_pair_diff S E rng samples m alt permute c1 = .ok r →
      r.corrected = false := by
  have hb : (E.nmodels == 2) = true := by simp [h2]
  refine ⟨by simp only [signif_pair_diff, hb, if_true], ?_⟩
  intro r hr
  cases hval : checkValidSamples E.nmodels samples with
  | false =>
      rw [signif_invalid_eq S E rng samples m alt permute c1 hval] at hr
      exact absurd hr (by simp)
  | true =>
      by_cases hmc : canUseMcnemar samples alt = true
      · rw [signif_mcnemar_eq S E rng samples m alt permute c1 hval hmc,
          hb] at hr
        injection hr with h
        rw [← h]
        rfl
      · rw [Bool.not_eq_true] at hmc
        cases permute with
        | false =>
            rw [signif_ttest_eq S E rng samples m alt c1 hval hmc] at hr
            simp only [hb, if_true] at hr
            injection hr with h
            rw [← h]
        | true =>
            rw [signif_permute_eq S E rng samples m alt c1 hval hmc] at hr
            simp only [hb, if_true] at hr
            injection hr with h
            rw [← h]

/-- Witness for C4 at a concrete two-model engine. -/
theorem nmodels2_forces_uncorrected_witness :
    (signif_pair_diff dummyStats ⟨2, 1 / 20, ["a", "b"]⟩ 0
        [[0, 1, 2], [1, 1, 1]] "m" .greater false true =
      signif_pair_diff dummyStats ⟨2, 1 / 20, ["a", "b"]⟩ 0
        [[0, 1, 2], [1, 1, 1]] "m" .greater false false) ∧
    ∀ r, signif_pair_diff dummyStats ⟨2, 1 / 20, ["a", "b"]⟩ 0
        [[0, 1, 2], [1, 1, 1]] "m" .greater false true = .ok r →
      r.corrected = false :=
  nmodels2_forces_uncorrected dummyStats ⟨2, 1 / 20, ["a", "b"]⟩ 0
    [[0, 1, 2], [1, 1, 1]] "m" .greater false true false rfl

/-- C8: with `permute = False` the result does not depend on the random
generator state — the t-test and McNemar paths consume no randomness, so two
calls with identical inputs return identical reports (the embedding is a pure
function of its arguments, so inputs are not mutated). -/
theorem signif_deterministic_no_permute
    (S : StatsLib) (E : PairedDifferenceTest)
    (samples : List (List ℚ)) (m : String) (alt : Alternative)
    (corrected : Bool) (rng₁ rng₂ : Nat) :
    signif_pair_diff S E rng₁ samples m alt false corrected =
      signif_pair_diff S E rng₂ samples m alt false corrected := rfl

/-- C3 (code bug witness): the `less` branch of the effect-size significance
decision (source line `res['effect_sizes'] <= 0.8`) compares against `+0.8`
rather than `-0.8`: the positive effect size `1/2`, which points against the
`less` hypothesis, is flagged significant, contradicting the claim (and the
source's own comment "has to be in the direction specified by the
alternative"). -/
theorem effect_size_less_direction_bug :
    effectSizeSignif Alternative.less (1 / 2) = true ∧
      ¬ ((1 / 2 : ℚ) ≤ -(4 / 5)) := by
  constructor
  · simp only [effectSizeSignif, decide_eq_true_eq]
    norm_num
  · norm_num

/-- C5: construction never rejects `nmodels < 2` (it clamps to 2, so the
engine always has at least two models), and with `model_names` supplied it
fails with `ConfigError` exactly when the list's length differs from the
clamped `nmodels`. -/
theorem init_clamps_nmodels_and_checks_names (nm : Int) (a : ℚ)
    (names : List String) :
    (∃ E, PairedDifferenceTest.init nm a none = .ok E ∧
      E.nmodels = (max 2 nm).toNat ∧ 2 ≤ E.nmodels) ∧
    (PairedDifferenceTest.init nm a (some names) = .error .badModelNames ↔
      names.length ≠ (max 2 nm).toNat) := by
  constructor
  · refine ⟨_, rfl, rfl, ?_⟩
    have h2 : (2 : Int) ≤ max 2 nm := le_max_left _ _
    show (2 : Nat) ≤ (max 2 nm).toNat
    omega
  · by_cases h : names.length = (max 2 nm).toNat
    · simp [PairedDifferenceTest.init, h]
    · simp [PairedDifferenceTest.init, h]

/-- Witness for C5 at `nmodels = 0 < 2` and a one-element name list. -/
theorem init_clamps_nmodels_and_checks_names_witness :
    (∃ E, PairedDifferenceTest.init 0 (1 / 20) none = .ok E ∧
      E.nmodels = (max 2 (0 : Int)).toNat ∧ 2 ≤ E.nmodels) ∧
    (PairedDifferenceTest.init 0 (1 / 20) (some ["x"]) =
        .error .badModelNames ↔
          ["x"].length ≠ (max 2 (0 : Int)).toNat) :=
  init_clamps_nmodels_and_checks_names 0 (1 / 20) ["x"]

theorem dedup_length_one_all_eq {β : Type} [DecidableEq β] (xs : List β)
    (h : xs.dedup.length = 1) : ∀ a ∈ xs, ∀ b ∈ xs, a = b := by
  obtain ⟨c, hc⟩ := List.length_eq_one.mp h
  intro a ha b hb
  have ha' := List.mem_dedup.mpr ha
  have hb' := List.mem_dedup.mpr hb
  rw [hc, List.mem_singleton] at ha' hb'
  rw [ha', hb']

theorem isValid_report_list_spec (E : PairedDifferenceTest)
    (l : List DiffTest) (hv : isValidSignifReportList E l = true) :
    (∀ r₁ ∈ l, ∀ r₂ ∈ l, r₁.model_names = r₂.model_names ∧
      r₁.corrected = r₂.corrected ∧ r₁.alternative = r₂.alternative) ∧
    (l.map (fun r => r.metric_name)).Nodup := by
  unfold isValidSignifReportList at hv
  simp only [Bool.and_eq_true, beq_iff_eq, List.all_eq_true,
    decide_eq_true_eq] at hv
  obtain ⟨⟨⟨hmn, hcorr⟩, halt⟩, hmetric⟩ := hv
  constructor
  · intro r₁ h₁ r₂ h₂
    refine ⟨(hmn r₁ h₁).trans (hmn r₂ h₂).symm, ?_, ?_⟩
    · exact dedup_length_one_all_eq _ hcorr _
        (List.mem_map_of_mem _ h₁) _ (List.mem_map_of_mem _ h₂)
    · exact dedup_length_one_all_eq _ halt _
        (List.mem_map_of_mem _ h₁) _ (List.mem_map_of_mem _ h₂)
  · have hsub := List.dedup_sublist (l.map (fun r => r.metric_name))
    have heq := hsub.eq_of_length (by rw [hmetric, List.length_map])
    rw [← heq]
    exact List.nodup_dedup _

/-- C6: combining reports succeeds only when all reports agree on
`model_names` (same order), `corrected` and `alternative` and all
`metric_name`s are pairwise distinct; whenever two reports differ in one of
those fields, or share a `metric_name`, it fails with
`IncompatibleReportsError`. -/
theorem combine_reports_compat (E : PairedDifferenceTest)
    (l : List DiffTest) :
    (∀ v, combineReports E l = .ok v →
      (∀ r₁ ∈ l, ∀ r₂ ∈ l, r₁.model_names = r₂.model_names ∧
        r₁.corrected = r₂.corrected ∧ r₁.alternative = r₂.alternative) ∧
      (l.map (fun r => r.metric_name)).Nodup) ∧
    (∀ r₁ ∈ l, ∀ r₂ ∈ l,
      (r₁.model_names ≠ r₂.model_names ∨ r₁.corrected ≠ r₂.corrected ∨
        r₁.alternative ≠ r₂.alternative) →
      combineReports E l = .error .incompatible) ∧
    (¬ (l.map (fun r => r.metric_name)).Nodup →
      combineReports E l = .error .incompatible) := by
  refine ⟨?_, ?_, ?_⟩
  · intro v hv
    by_cases hb : isValidSignifReportList E l = true
    · exact isValid_report_list_spec E l hb
    · rw [Bool.not_eq_true] at hb
      rw [combineReports, hb] at hv
      exact absurd hv (by simp)
  · intro r₁ h₁ r₂ h₂ hdiff
    by_cases hb : isValidSignifReportList E l = true
    · obtain ⟨agree, _⟩ := isValid_report_list_spec E l hb
      obtain ⟨e1, e2, e3⟩ := agree r₁ h₁ r₂ h₂
      rcases hdiff with h | h | h
      · exact absurd e1 h
      · exact absurd e2 h
      · exact absurd e3 h
    · rw [Bool.not_eq_true] at hb
      rw [combineReports, hb]
      rfl
  · intro hnd
    by_cases hb : isValidSignifReportList E l = true
    · exact absurd (isValid_report_list_spec E l hb).2 hnd
    · rw [Bool.not_eq_true] at hb
      rw [combineReports, hb]
      rfl

/-- A concrete report shape, used to exercise report combination. -/
def sampleReport (mname : String) (corrected : Bool) : DiffTest :=
  { model_names := ["a", "b"]
    metric_name := mname
    pvalues := []
    alternative := .twoSided
    permute := false
    corrected := corrected
    pvalue_is_signif := []
    sample_means := []
    effect_sizes := none
    effect_size_is_signif := none }

/-- Witness for C6: a compatible two-report list passes, and the theorem
yields the agreement facts for it. -/
theorem combine_reports_compat_witness :
    (∀ r₁ ∈ [sampleReport "m1" false, sampleReport "m2" false],
      ∀ r₂ ∈ [sampleReport "m1" false, sampleReport "m2" false],
      r₁.model_names = r₂.model_names ∧ r₁.corrected = r₂.corrected ∧
        r₁.alternative = r₂.alternative) ∧
    ([sampleReport "m1" false, sampleReport "m2" false].map
      (fun r => r.metric_name)).Nodup :=
  (combine_reports_compat ⟨2, 1 / 20, ["a", "b"]⟩
    [sampleReport "m1" false, sampleReport "m2" false]).1
    [("m1", []), ("m2", [])] rfl

/-- C7: in the non-McNemar, non-permute branch the reported effect size of
the `k`-th canonical pair is the paired t statistic of that pair divided by
`sqrt (sqrt n)`, `n` the common sample length. -/
theorem ttest_effect_size_normalization
    (S : StatsLib) (E : PairedDifferenceTest) (rng : Nat)
    (samples : List (List ℚ)) (m : String) (alt : Alternative)
    (corrected : Bool) (n : Nat)
    (hval : checkValidSamples E.nmodels samples = true)
    (hmc : canUseMcnemar samples alt = false)
    (hn : (samples.headD []).length = n) :
    ∃ r, signif_pair_diff S E rng samples m alt false corrected = .ok r ∧
      r.effect_sizes = some ((specCanonicalPairs E.nmodels).map
        (fun ij => (S.ttest_rel (samples.getD ij.1 [])
          (samples.getD ij.2 []) alt).1 / S.sqrt (S.sqrt (n : ℚ)))) := by
  subst hn
  have hlen := checkValidSamples_length hval
  refine ⟨_, signif_ttest_eq S E rng samples m alt corrected hval hmc, ?_⟩
  show some _ = some _
  rw [iteratePairs, combos2_eq_canonical samples [], hlen, List.map_map,
    List.map_map]
  rfl

/-- Witness for C7 at a concrete three-model sample set of length 2. -/
theorem ttest_effect_size_normalization_witness :
    ∃ r, signif_pair_diff dummyStats ⟨3, 1 / 20, ["a", "b", "c"]⟩ 0
        [[0, 1], [1, 0], [2, 2]] "m" .greater false false = .ok r ∧
      r.effect_sizes = some ((specCanonicalPairs 3).map
        (fun ij => (dummyStats.ttest_rel
          ([[0, 1], [1, 0], [2, 2]].getD ij.1 [])
          ([[0, 1], [1, 0], [2, 2]].getD ij.2 []) .greater).1 /
            dummyStats.sqrt (dummyStats.sqrt ((2 : Nat) : ℚ)))) :=
  ttest_effect_size_normalization dummyStats ⟨3, 1 / 20, ["a", "b", "c"]⟩ 0
    [[0, 1], [1, 0], [2, 2]] "m" .greater false 2 (by decide) (by decide) rfl

/-- C9: construction succeeds for every alpha and silently clamps it into
`[1e-10, 0.5]`; in particular `alpha = 0.9` becomes `0.5` and `alpha = 0`
becomes `1e-10`. -/
theorem alpha_clamped_on_init :
    (∀ (nm : Int) (a : ℚ), ∃ E, PairedDifferenceTest.init nm a none = .ok E ∧
      E.alpha = clip a (1 / 10000000000) (1 / 2) ∧
      1 / 10000000000 ≤ E.alpha ∧ E.alpha ≤ 1 / 2) ∧
    (∃ E, PairedDifferenceTest.init 2 (9 / 10) none = .ok E ∧
      E.alpha = 1 / 2) ∧
    (∃ E, PairedDifferenceTest.init 2 0 none = .ok E ∧
      E.alpha = 1 / 10000000000) := by
  refine ⟨fun nm a => ⟨_, rfl, rfl, ?_, ?_⟩, ⟨_, rfl, ?_⟩, ⟨_, rfl, ?_⟩⟩
  · exact le_min (le_max_right _ _) (by norm_num)
  · exact min_le_right _ _
  · show clip (9 / 10) (1 / 10000000000) (1 / 2) = 1 / 2
    rw [clip, max_eq_left (by norm_num), min_eq_right (by norm_num)]
  · show clip 0 (1 / 10000000000) (1 / 2) = 1 / 10000000000
    rw [clip, max_eq_right (by norm_num), min_eq_left (by norm_num)]

theorem zip_self_fst_eq_snd {α : Type} (l : List α) :
    ∀ p ∈ l.zip l, (p : α × α).1 = p.2 := by
  induction l with
  | nil => intro p hp; cases hp
  | cons x xs ih =>
      intro p hp
      rw [List.zip_cons_cons] at hp
      rcases List.mem_cons.mp hp with hp | hp
      · rw [hp]
      · exact ih p hp

/-- C10: Cohen's g in the McNemar path is always well-defined — the
continuity-corrected cells each are at least 1/2, so the denominator
`b + c` is at least 1 (hence nonzero), and two identical samples (zero
discordant pairs) yield `g = 0`. -/
theorem cohens_g_total :
    (∀ b c : Nat, 1 ≤ contCorr b + contCorr c ∧
      0 < contCorr b + contCorr c) ∧
    (∀ x : List ℚ, (contingencyTable x x).n01 = 0 ∧
      (contingencyTable x x).n10 = 0) ∧
    (∀ x : List ℚ, cohensG (contingencyTable x x).n01
      (contingencyTable x x).n10 = 0) := by
  have hhalf : ∀ k : Nat, (1 : ℚ) / 2 ≤ contCorr k :=
    fun k => le_max_right _ _
  have hzero : ∀ x : List ℚ, (contingencyTable x x).n01 = 0 ∧
      (contingencyTable x x).n10 = 0 := by
    intro x
    constructor
    · apply List.countP_eq_zero.mpr
      intro p hp
      have he := zip_self_fst_eq_snd x p hp
      by_cases h0 : p.1 = 0
      · have h1 : ¬ (p.2 = 1) := by rw [← he, h0]; norm_num
        simp [h1]
      · simp [h0]
    · apply List.countP_eq_zero.mpr
      intro p hp
      have he := zip_self_fst_eq_snd x p hp
      by_cases h0 : p.1 = 1
      · have h1 : ¬ (p.2 = 0) := by rw [← he, h0]; norm_num
        simp [h1]
      · simp [h0]
  have hg0 : cohensG 0 0 = 0 := by
    rw [cohensG, contCorr]
    norm_num
  refine ⟨?_, hzero, ?_⟩
  · intro b c
    have hb := hhalf b
    have hc := hhalf c
    constructor <;> linarith
  · intro x
    rw [(hzero x).1, (hzero x).2]
    exact hg0

end UnitxtSig
